import Mathlib

/-!
SubmissionLambda: a shallow embedding of `src/lambdas/submissionLambda.js`.

The handler is embedded as a total function from an invocation environment
(the values produced by `uuidv4()`, `new Date().toISOString()`, the outcome of
`ddb.send`, and `process.env.TABLE_NAME`) and an event to the returned response
together with the ordered list of observable effects (store commands sent and
`console.error` calls).

JavaScript strings are sequences of UTF-16 code units and are modelled as
`List Nat`.  The ECMAScript built-ins the handler calls (`JSON.parse`,
`JSON.stringify`, `ToBoolean`, property access) are modelled after ECMA-262.

Assumptions of the embedding:
* `uuidv4()` and `new Date().toISOString()` return a string and do not throw;
* the `body` property of an event object is a string, `null` or absent;
* `Object.prototype` carries no `name`, `email` or `message` property.
-/

namespace SubmissionLambda

/-! ## JavaScript values -/

/-- A JavaScript string: its UTF-16 code units. -/
abbrev JSString := List Nat

/-- UTF-16 code units of one Unicode scalar value. -/
def utf16Char (c : Char) : List Nat :=
  if c.toNat < 0x10000 then [c.toNat]
  else [0xD800 + (c.toNat - 0x10000) / 0x400, 0xDC00 + (c.toNat - 0x10000) % 0x400]

/-- The JavaScript string denoted by a source-text string literal. -/
def utf16 (s : String) : JSString :=
  s.toList.flatMap utf16Char

/-- A number produced by `JSON.parse`: the exact decimal value
`(-1)^neg * mant * 10^exp10` of the literal.  The JavaScript Number is the
IEEE-754 binary64 value nearest to it (ties to even). -/
structure JSNumber where
  neg : Bool
  mant : Nat
  exp10 : Int
deriving DecidableEq, Repr

/-- Whether the binary64 rounding of the decimal value is `+0` or `-0`: exactly
when its magnitude is at most `2^-1075`, half of the least subnormal. -/
def JSNumber.isZero (n : JSNumber) : Bool :=
  n.mant == 0 || (n.exp10 < 0 && decide (n.mant * 2 ^ 1075 ≤ 10 ^ n.exp10.natAbs))

/-- The values reachable in the handler: `undefined` and the values
`JSON.parse` can return.  Objects keep their own properties in creation order. -/
inductive JSVal where
  | undefined
  | null
  | bool (b : Bool)
  | number (n : JSNumber)
  | string (s : JSString)
  | array (items : List JSVal)
  | object (props : List (JSString × JSVal))

/-- ECMA-262 `ToBoolean`. -/
def ToBoolean : JSVal → Bool
  | .undefined => false
  | .null => false
  | .bool b => b
  | .number n => !n.isZero
  | .string s => !s.isEmpty
  | .array _ => true
  | .object _ => true

/-- Thrown values.  `TypeError` and `SyntaxError` are raised by the language
itself; `rejected` is a rejection of the promise returned by `ddb.send`. -/
inductive JSError where
  | TypeError
  | SyntaxError
  | rejected (name message : JSString)
deriving DecidableEq, Repr

/-- Own-property lookup in a plain object (`undefined` when absent). -/
def getProp : List (JSString × JSVal) → JSString → JSVal
  | [], _ => .undefined
  | (k, v) :: rest, key => if k = key then v else getProp rest key

/-- The operation `CreateDataProperty` on a plain object: an existing key keeps its position
and takes the new value, a new key is appended. -/
def setProp : List (JSString × JSVal) → JSString → JSVal → List (JSString × JSVal)
  | [], key, v => [(key, v)]
  | (k, w) :: rest, key, v =>
    if k = key then (k, v) :: rest else (k, w) :: setProp rest key v

/-! ## `JSON.parse` (ECMA-262 25.5.1 without reviver, grammar of ECMA-404)

The text is tokenised by a state machine that consumes one code unit at a
time, and the tokens are assembled by a stack machine.  Both are folds over
their input, so the function is total and needs no fuel. -/

namespace JSON

inductive Token where
  | lbrace
  | rbrace
  | lbracket
  | rbracket
  | colon
  | comma
  | str (s : JSString)
  | num (n : JSNumber)
  | lit (v : JSVal)

/-- Position inside the number grammar
`-? (0 | [1-9][0-9]*) (. [0-9]+)? ([eE] [+-]? [0-9]+)?`. -/
inductive NumPhase where
  | minus
  | zero
  | int
  | dot
  | frac
  | e
  | esign
  | exp
deriving DecidableEq

structure NumAcc where
  neg : Bool
  mant : Nat
  fracDigits : Nat
  expNeg : Bool
  expVal : Nat

def NumAcc.toNumber (a : NumAcc) : JSNumber :=
  { neg := a.neg, mant := a.mant,
    exp10 := (if a.expNeg then -(a.expVal : Int) else (a.expVal : Int)) - (a.fracDigits : Int) }

inductive Mode where
  | idle
  | str (acc : JSString)
  | esc (acc : JSString)
  | hex (acc : JSString) (count : Nat) (value : Nat)
  | num (phase : NumPhase) (acc : NumAcc)
  | word (rest : List Nat) (v : JSVal)

def isWhitespace (u : Nat) : Bool :=
  u = 0x09 || u = 0x0A || u = 0x0D || u = 0x20

def isDigit (u : Nat) : Bool :=
  0x30 ≤ u && u ≤ 0x39

def hexValue (u : Nat) : Option Nat :=
  if 0x30 ≤ u ∧ u ≤ 0x39 then some (u - 0x30)
  else if 0x41 ≤ u ∧ u ≤ 0x46 then some (u - 0x41 + 10)
  else if 0x61 ≤ u ∧ u ≤ 0x66 then some (u - 0x61 + 10)
  else none

/-- One code unit read between tokens.  The token list is kept newest first. -/
def lexIdle (toks : List Token) (u : Nat) : Option (Mode × List Token) :=
  if isWhitespace u then some (.idle, toks)
  else if u = 0x7B then some (.idle, .lbrace :: toks)
  else if u = 0x7D then some (.idle, .rbrace :: toks)
  else if u = 0x5B then some (.idle, .lbracket :: toks)
  else if u = 0x5D then some (.idle, .rbracket :: toks)
  else if u = 0x3A then some (.idle, .colon :: toks)
  else if u = 0x2C then some (.idle, .comma :: toks)
  else if u = 0x22 then some (.str [], toks)
  else if u = 0x2D then some (.num .minus ⟨true, 0, 0, false, 0⟩, toks)
  else if u = 0x30 then some (.num .zero ⟨false, 0, 0, false, 0⟩, toks)
  else if isDigit u then some (.num .int ⟨false, u - 0x30, 0, false, 0⟩, toks)
  else if u = 0x74 then some (.word [0x72, 0x75, 0x65] (.bool true), toks)
  else if u = 0x66 then some (.word [0x61, 0x6C, 0x73, 0x65] (.bool false), toks)
  else if u = 0x6E then some (.word [0x75, 0x6C, 0x6C] .null, toks)
  else none

/-- One code unit read inside a number.  A unit that cannot continue a complete
number ends it and is read again between tokens. -/
def lexNum (phase : NumPhase) (a : NumAcc) (toks : List Token) (u : Nat) :
    Option (Mode × List Token) :=
  let isE : Bool := u = 0x65 || u = 0x45
  let d := u - 0x30
  match phase with
  | .minus =>
    if u = 0x30 then some (.num .zero a, toks)
    else if isDigit u then some (.num .int { a with mant := d }, toks)
    else none
  | .zero =>
    if u = 0x2E then some (.num .dot a, toks)
    else if isE then some (.num .e a, toks)
    else lexIdle (.num a.toNumber :: toks) u
  | .int =>
    if isDigit u then some (.num .int { a with mant := a.mant * 10 + d }, toks)
    else if u = 0x2E then some (.num .dot a, toks)
    else if isE then some (.num .e a, toks)
    else lexIdle (.num a.toNumber :: toks) u
  | .dot =>
    if isDigit u then
      some (.num .frac { a with mant := a.mant * 10 + d, fracDigits := a.fracDigits + 1 }, toks)
    else none
  | .frac =>
    if isDigit u then
      some (.num .frac { a with mant := a.mant * 10 + d, fracDigits := a.fracDigits + 1 }, toks)
    else if isE then some (.num .e a, toks)
    else lexIdle (.num a.toNumber :: toks) u
  | .e =>
    if u = 0x2B then some (.num .esign a, toks)
    else if u = 0x2D then some (.num .esign { a with expNeg := true }, toks)
    else if isDigit u then some (.num .exp { a with expVal := d }, toks)
    else none
  | .esign =>
    if isDigit u then some (.num .exp { a with expVal := d }, toks)
    else none
  | .exp =>
    if isDigit u then some (.num .exp { a with expVal := a.expVal * 10 + d }, toks)
    else lexIdle (.num a.toNumber :: toks) u

/-- The code unit denoted by a single-character escape. -/
def escapeValue (u : Nat) : Option Nat :=
  if u = 0x22 then some 0x22
  else if u = 0x5C then some 0x5C
  else if u = 0x2F then some 0x2F
  else if u = 0x62 then some 0x08
  else if u = 0x66 then some 0x0C
  else if u = 0x6E then some 0x0A
  else if u = 0x72 then some 0x0D
  else if u = 0x74 then some 0x09
  else none

def lexStep (st : Mode × List Token) (u : Nat) : Option (Mode × List Token) :=
  match st with
  | (.idle, toks) => lexIdle toks u
  | (.str acc, toks) =>
    if u = 0x22 then some (.idle, .str acc :: toks)
    else if u = 0x5C then some (.esc acc, toks)
    else if u < 0x20 then none
    else some (.str (acc ++ [u]), toks)
  | (.esc acc, toks) =>
    if u = 0x75 then some (.hex acc 0 0, toks)
    else (escapeValue u).map fun c => (.str (acc ++ [c]), toks)
  | (.hex acc count value, toks) =>
    (hexValue u).map fun d =>
      if count = 3 then (.str (acc ++ [value * 16 + d]), toks)
      else (.hex acc (count + 1) (value * 16 + d), toks)
  | (.num phase a, toks) => lexNum phase a toks u
  | (.word rest v, toks) =>
    match rest with
    | [] => none
    | [c] => if u = c then some (.idle, .lit v :: toks) else none
    | c :: cs => if u = c then some (.word cs v, toks) else none

/-- End of input: only between tokens or after a complete number. -/
def lexEnd : Mode × List Token → Option (List Token)
  | (.idle, toks) => some toks.reverse
  | (.num phase a, toks) =>
    if phase = .zero ∨ phase = .int ∨ phase = .frac ∨ phase = .exp then
      some (Token.num a.toNumber :: toks).reverse
    else none
  | _ => none

def lexFrom (st : Mode × List Token) : List Nat → Option (List Token)
  | [] => lexEnd st
  | u :: rest =>
    match lexStep st u with
    | none => none
    | some st' => lexFrom st' rest

def tokenize (text : JSString) : Option (List Token) :=
  lexFrom (.idle, []) text

/-- An open container: an array with the elements read so far, an object
waiting for a key or a separator, or an object whose member `key` waits for
its value. -/
inductive Frame where
  | arr (items : List JSVal)
  | obj (props : List (JSString × JSVal))
  | member (props : List (JSString × JSVal)) (key : JSString)

/-- What the grammar admits next. -/
inductive Expect where
  | value
  | valueOrEnd
  | keyOrEnd
  | key
  | colon
  | commaOrEnd
  | done (v : JSVal)

structure ParseState where
  stack : List Frame
  expect : Expect

/-- A value has been read: it becomes the result, the next array element, or
the value of the pending member (a repeated key overwrites). -/
def complete (stack : List Frame) (v : JSVal) : Option ParseState :=
  match stack with
  | [] => some ⟨[], .done v⟩
  | .arr items :: st => some ⟨.arr (items ++ [v]) :: st, .commaOrEnd⟩
  | .member props k :: st => some ⟨.obj (setProp props k v) :: st, .commaOrEnd⟩
  | .obj _ :: _ => none

def Expect.admitsValue : Expect → Bool
  | .value => true
  | .valueOrEnd => true
  | _ => false

def parseStep (s : ParseState) (t : Token) : Option ParseState :=
  match t with
  | .lbracket => if s.expect.admitsValue then some ⟨.arr [] :: s.stack, .valueOrEnd⟩ else none
  | .lbrace => if s.expect.admitsValue then some ⟨.obj [] :: s.stack, .keyOrEnd⟩ else none
  | .num n => if s.expect.admitsValue then complete s.stack (.number n) else none
  | .lit v => if s.expect.admitsValue then complete s.stack v else none
  | .str x =>
    match s.expect, s.stack with
    | .value, st => complete st (.string x)
    | .valueOrEnd, st => complete st (.string x)
    | .keyOrEnd, .obj props :: st => some ⟨.member props x :: st, .colon⟩
    | .key, .obj props :: st => some ⟨.member props x :: st, .colon⟩
    | _, _ => none
  | .rbracket =>
    match s.expect, s.stack with
    | .valueOrEnd, .arr items :: st => complete st (.array items)
    | .commaOrEnd, .arr items :: st => complete st (.array items)
    | _, _ => none
  | .rbrace =>
    match s.expect, s.stack with
    | .keyOrEnd, .obj props :: st => complete st (.object props)
    | .commaOrEnd, .obj props :: st => complete st (.object props)
    | _, _ => none
  | .colon =>
    match s.expect with
    | .colon => some ⟨s.stack, .value⟩
    | _ => none
  | .comma =>
    match s.expect, s.stack with
    | .commaOrEnd, .arr items :: st => some ⟨.arr items :: st, .value⟩
    | .commaOrEnd, .obj props :: st => some ⟨.obj props :: st, .key⟩
    | _, _ => none

def parseFrom (s : ParseState) : List Token → Option JSVal
  | [] =>
    match s.expect, s.stack with
    | .done v, [] => some v
    | _, _ => none
  | t :: rest =>
    match parseStep s t with
    | none => none
    | some s' => parseFrom s' rest

/-- The call `JSON.parse(text)`: the value denoted by the text, or a `SyntaxError`. -/
def parse (text : JSString) : Except JSError JSVal :=
  match tokenize text with
  | none => .error .SyntaxError
  | some toks =>
    match parseFrom ⟨[], .value⟩ toks with
    | none => .error .SyntaxError
    | some v => .ok v

/-! ## `JSON.stringify` (ECMA-262 25.5.2), for objects of strings -/

def isHighSurrogate (u : Nat) : Bool :=
  0xD800 ≤ u && u ≤ 0xDBFF

def isLowSurrogate (u : Nat) : Bool :=
  0xDC00 ≤ u && u ≤ 0xDFFF

/-- Code unit of the lowercase hexadecimal digit `d`. -/
def hexDigit (d : Nat) : Nat :=
  if d < 10 then 0x30 + d else 0x61 + (d - 10)

/-- The operation `UnicodeEscape`: a backslash, `u`, and four lowercase hex digits. -/
def unicodeEscape (u : Nat) : JSString :=
  [0x5C, 0x75, hexDigit (u / 4096 % 16), hexDigit (u / 256 % 16), hexDigit (u / 16 % 16),
    hexDigit (u % 16)]

/-- The text `QuoteJSONString` emits for a code point that is a single code
unit: a short escape, a `\u` escape for the other control characters and for a
lone surrogate, and the unit itself otherwise. -/
def quoteUnit (u : Nat) : JSString :=
  if u = 0x08 then [0x5C, 0x62]
  else if u = 0x09 then [0x5C, 0x74]
  else if u = 0x0A then [0x5C, 0x6E]
  else if u = 0x0C then [0x5C, 0x66]
  else if u = 0x0D then [0x5C, 0x72]
  else if u = 0x22 then [0x5C, 0x22]
  else if u = 0x5C then [0x5C, 0x5C]
  else if u < 0x20 then unicodeEscape u
  else if isHighSurrogate u || isLowSurrogate u then unicodeEscape u
  else [u]

/-- The characters `QuoteJSONString` emits between the quotes.  A high surrogate
followed by a low surrogate is one code point and is copied. -/
def quoteUnits : JSString → JSString
  | [] => []
  | [u] => quoteUnit u
  | u :: l :: rest =>
    if isHighSurrogate u && isLowSurrogate l then u :: l :: quoteUnits rest
    else quoteUnit u ++ quoteUnits (l :: rest)

/-- The operation `QuoteJSONString`: the quoted characters between two quotes. -/
def quote (s : JSString) : JSString :=
  0x22 :: quoteUnits s ++ [0x22]

/-- The members of `SerializeJSONObject`, joined by commas. -/
def members : List (JSString × JSString) → JSString
  | [] => []
  | [(k, v)] => quote k ++ 0x3A :: quote v
  | (k, v) :: rest => quote k ++ 0x3A :: quote v ++ 0x2C :: members rest

/-- The call `JSON.stringify(o)` for a plain object `o` whose own properties, listed in
order, all hold strings: the only arguments the handler passes. -/
def stringify (o : List (JSString × JSString)) : JSString :=
  0x7B :: members o ++ [0x7D]

end JSON

/-! ## The handler -/

/-- The HTTP-style response object the handler returns. -/
structure Response where
  statusCode : Nat
  headers : List (JSString × JSString)
  body : JSString
deriving DecidableEq

/-- Observable effects of an invocation, in program order: the input of a
`PutCommand` passed to `ddb.send`, and a value passed to `console.error`. -/
inductive Effect where
  | send (input : JSVal)
  | consoleError (err : JSError)

/-- The `body` property of the event: absent, `null`, or a string (the shape an
HTTP gateway delivers). -/
inductive Body where
  | undefined
  | null
  | text (s : JSString)

/-- The argument of the handler. -/
inductive Event where
  | undefined
  | null
  | object (body : Body)

/-- What an invocation reads from outside the handler. -/
structure Env where
  /-- Value of `process.env.TABLE_NAME`, if set. -/
  TABLE_NAME : Option JSString
  /-- Value returned by `uuidv4()`. -/
  uuidv4 : JSString
  /-- Value returned by `new Date().toISOString()`. -/
  now : JSString
  /-- Outcome of awaiting `ddb.send(new PutCommand(input))`. -/
  send : JSVal → Except JSError Unit

/-- Line 7: `process.env.TABLE_NAME || "UserSubmissions"`. -/
def TABLE (TABLE_NAME : Option JSString) : JSString :=
  match TABLE_NAME with
  | some v => if v.isEmpty then utf16 "UserSubmissions" else v
  | none => utf16 "UserSubmissions"

/-- The headers object written on lines 20, 35 and 43. -/
def headers : List (JSString × JSString) :=
  [(utf16 "Content-Type", utf16 "application/json"),
   (utf16 "Access-Control-Allow-Origin", utf16 "*")]

/-- Line 14, `event.body`: reading a property of `undefined` or `null` throws. -/
def eventBody : Event → Except JSError Body
  | .undefined => .error .TypeError
  | .null => .error .TypeError
  | .object b => .ok b

/-- Line 14, `event.body ? JSON.parse(event.body) : {}`. -/
def parseBody : Body → Except JSError JSVal
  | .undefined => .ok (.object [])
  | .null => .ok (.object [])
  | .text s => if s.isEmpty then .ok (.object []) else JSON.parse s

/-- Property read `v[key]` for the keys `name`, `email`, `message`: an own
property of a plain object; primitives and arrays have no such property, neither
own nor inherited. -/
def getField (v : JSVal) (key : JSString) : JSVal :=
  match v with
  | .object props => getProp props key
  | _ => .undefined

/-- Line 15, `const { name, email, message } = body`: destructuring `undefined`
or `null` throws. -/
def destructure : JSVal → Except JSError (JSVal × JSVal × JSVal)
  | .undefined => .error .TypeError
  | .null => .error .TypeError
  | v => .ok (getField v (utf16 "name"), getField v (utf16 "email"), getField v (utf16 "message"))

/-- Lines 18-22. -/
def response400 : Response :=
  { statusCode := 400, headers := headers,
    body := JSON.stringify [(utf16 "error", utf16 "name, email and message are required.")] }

/-- Lines 33-37. -/
def response201 (submissionId : JSString) : Response :=
  { statusCode := 201, headers := headers,
    body := JSON.stringify
      [(utf16 "submissionId", submissionId), (utf16 "message", utf16 "Submission saved.")] }

/-- Lines 41-45. -/
def response500 : Response :=
  { statusCode := 500, headers := headers,
    body := JSON.stringify [(utf16 "error", utf16 "Internal server error")] }

/-- Line 29, `{ submissionId, name, email, message, submissionDate, status }`. -/
def mkItem (submissionId : JSString) (name email message : JSVal) (submissionDate status : JSString) :
    JSVal :=
  .object
    [(utf16 "submissionId", .string submissionId), (utf16 "name", name), (utf16 "email", email),
     (utf16 "message", message), (utf16 "submissionDate", .string submissionDate),
     (utf16 "status", .string status)]

/-- Line 31, `{ TableName: TABLE, Item: item }`. -/
def putInput (table : JSString) (item : JSVal) : JSVal :=
  .object [(utf16 "TableName", .string table), (utf16 "Item", item)]

/-- Lines 13-38, the `try` block: the effects performed, and the value returned
or thrown. -/
def tryBlock (env : Env) (event : Event) : List Effect × Except JSError Response :=
  match eventBody event with
  | .error err => ([], .error err)
  | .ok b =>
    match parseBody b with
    | .error err => ([], .error err)
    | .ok body =>
      match destructure body with
      | .error err => ([], .error err)
      | .ok (name, email, message) =>
        if !ToBoolean name || !ToBoolean email || !ToBoolean message then
          ([], .ok response400)
        else
          let submissionId := env.uuidv4
          let submissionDate := env.now
          let status := utf16 "NEW"
          let item := mkItem submissionId name email message submissionDate status
          let input := putInput (TABLE env.TABLE_NAME) item
          match env.send input with
          | .error err => ([.send input], .error err)
          | .ok _ => ([.send input], .ok (response201 submissionId))

/-- The result of an invocation: the response the returned promise resolves
with, and the effects performed. -/
structure Run where
  response : Response
  effects : List Effect

/-- Lines 12-47, `exports.handler`: the `try` block, and the `catch` clause that
logs the thrown value and returns the 500 response. -/
def handler (env : Env) (event : Event) : Run :=
  match tryBlock env event with
  | (fx, .ok r) => ⟨r, fx⟩
  | (fx, .error err) => ⟨response500, fx ++ [.consoleError err]⟩

/-! ## Observations and sample environments -/

/-- An environment whose store accepts every command. -/
def Env.accepting (id now : JSString) : Env :=
  { TABLE_NAME := none, uuidv4 := id, now := now, send := fun _ => .ok () }

/-- An environment whose store rejects every command with `err`. -/
def Env.rejecting (id now : JSString) (err : JSError) : Env :=
  { TABLE_NAME := none, uuidv4 := id, now := now, send := fun _ => .error err }

/-- Scenario A of the specification. -/
def scenarioA : JSString :=
  utf16 "\x7b\"name\":\"Ada\",\"email\":\"ada@example.com\",\"message\":\"Hello\"\x7d"

/-- Scenario B of the specification. -/
def scenarioB : JSString :=
  utf16 "\x7b\"name\":\"\",\"email\":\"ada@example.com\",\"message\":\"Hello\"\x7d"

/-- The inputs of the store commands among the effects, in order. -/
def sends : List Effect → List JSVal
  | [] => []
  | .send input :: rest => input :: sends rest
  | .consoleError _ :: rest => sends rest

/-- The values passed to `console.error` among the effects, in order. -/
def logged : List Effect → List JSError
  | [] => []
  | .send _ :: rest => logged rest
  | .consoleError err :: rest => err :: logged rest

/-! ## Lemmas -/

theorem JSON.parse_nil : JSON.parse [] = .error .SyntaxError := rfl

theorem parseBody_text {text : JSString} {v : JSVal} (h : JSON.parse text = .ok v) :
    parseBody (.text text) = .ok v := by
  cases text with
  | nil => simp [JSON.parse_nil] at h
  | cons u rest => simpa [parseBody] using h

theorem parseBody_text_error {text : JSString} {err : JSError} (hne : text ≠ [])
    (h : JSON.parse text = .error err) : parseBody (.text text) = .error err := by
  cases text with
  | nil => exact absurd rfl hne
  | cons u rest => simpa [parseBody] using h

/-- The `try` block on a body that parses to an object. -/
theorem tryBlock_object (env : Env) {text : JSString} {props : List (JSString × JSVal)}
    (h : JSON.parse text = .ok (.object props)) :
    tryBlock env (.object (.text text)) =
      if !ToBoolean (getProp props (utf16 "name")) || !ToBoolean (getProp props (utf16 "email"))
          || !ToBoolean (getProp props (utf16 "message")) then
        ([], .ok response400)
      else
        match env.send (putInput (TABLE env.TABLE_NAME)
            (mkItem env.uuidv4 (getProp props (utf16 "name")) (getProp props (utf16 "email"))
              (getProp props (utf16 "message")) env.now (utf16 "NEW"))) with
        | .error err =>
          ([.send (putInput (TABLE env.TABLE_NAME)
            (mkItem env.uuidv4 (getProp props (utf16 "name")) (getProp props (utf16 "email"))
              (getProp props (utf16 "message")) env.now (utf16 "NEW")))], .error err)
        | .ok _ =>
          ([.send (putInput (TABLE env.TABLE_NAME)
            (mkItem env.uuidv4 (getProp props (utf16 "name")) (getProp props (utf16 "email"))
              (getProp props (utf16 "message")) env.now (utf16 "NEW")))],
            .ok (response201 env.uuidv4)) := by
  simp only [tryBlock, eventBody, parseBody_text h, destructure, getField]

theorem response201_body (id : JSString) :
    (response201 id).body =
      utf16 "\x7b\"submissionId\":\"" ++ JSON.quoteUnits id ++ utf16 "\",\"message\":\"Submission saved.\"\x7d" := by
  have h1 : JSON.quote (utf16 "submissionId") = utf16 "\"submissionId\"" := by decide
  have h2 : JSON.quote (utf16 "message") ++ 0x3A :: JSON.quote (utf16 "Submission saved.")
      = utf16 "\"message\":\"Submission saved.\"" := by decide
  have h3 : utf16 "\x7b\"submissionId\":\"" = 0x7B :: utf16 "\"submissionId\"" ++ [0x3A, 0x22] := by decide
  have h4 : utf16 "\",\"message\":\"Submission saved.\"\x7d"
      = 0x22 :: 0x2C :: utf16 "\"message\":\"Submission saved.\"" ++ [0x7D] := by decide
  simp only [response201, JSON.stringify, JSON.members, h1, h3, h4, List.append_assoc, h2]
  simp [JSON.quote]

theorem handler_of_tryBlock_ok {env : Env} {event : Event} {fx : List Effect} {r : Response}
    (h : tryBlock env event = (fx, .ok r)) : handler env event = ⟨r, fx⟩ := by
  simp [handler, h]

theorem handler_of_tryBlock_error {env : Env} {event : Event} {fx : List Effect} {err : JSError}
    (h : tryBlock env event = (fx, .error err)) :
    handler env event = ⟨response500, fx ++ [.consoleError err]⟩ := by
  simp [handler, h]


theorem response400_eq :
    response400 =
      { statusCode := 400, headers := headers,
        body := utf16 "\x7b\"error\":\"name, email and message are required.\"\x7d" } := by
  decide

theorem response500_eq :
    response500 =
      { statusCode := 500, headers := headers,
        body := utf16 "\x7b\"error\":\"Internal server error\"\x7d" } := by
  decide

theorem response500_ne_response400 : response500 ≠ response400 := by
  decide

/-- A response returned by the `try` block is the 201 or the 400 response. -/
theorem tryBlock_ok_cases {env : Env} {event : Event} {fx : List Effect} {r : Response}
    (h : tryBlock env event = (fx, .ok r)) :
    r = response201 env.uuidv4 ∨ r = response400 := by
  unfold tryBlock at h
  split at h
  · simp at h
  · split at h
    · simp at h
    · split at h
      · simp at h
      · split at h
        · simp only [Prod.mk.injEq, Except.ok.injEq] at h
          exact Or.inr h.2.symm
        · simp only at h
          split at h
          · simp at h
          · simp only [Prod.mk.injEq, Except.ok.injEq] at h
            exact Or.inl h.2.symm

/-- Every response is one of the three the source constructs. -/
theorem handler_response_cases (env : Env) (event : Event) :
    (handler env event).response = response201 env.uuidv4
      ∨ (handler env event).response = response400
      ∨ (handler env event).response = response500 := by
  cases h : tryBlock env event with
  | mk fx res =>
    cases res with
    | error err =>
      rw [handler_of_tryBlock_error h]
      exact Or.inr (Or.inr rfl)
    | ok r =>
      rw [handler_of_tryBlock_ok h]
      rcases tryBlock_ok_cases h with h1 | h1
      · exact Or.inl h1
      · exact Or.inr (Or.inl h1)

/-! ### `QuoteJSONString` is injective -/

namespace JSON

theorem hexDigit_inj {a b : Nat} (ha : a < 16) (hb : b < 16) (h : hexDigit a = hexDigit b) :
    a = b := by
  unfold hexDigit at h
  split_ifs at h <;> omega

theorem unicodeEscape_inj {u v : Nat} (hu : u < 65536) (hv : v < 65536)
    (h : unicodeEscape u = unicodeEscape v) : u = v := by
  simp only [unicodeEscape, List.cons.injEq, true_and, and_true] at h
  obtain ⟨h3, h2, h1, h0⟩ := h
  have e3 := hexDigit_inj (Nat.mod_lt _ (by decide)) (Nat.mod_lt _ (by decide)) h3
  have e2 := hexDigit_inj (Nat.mod_lt _ (by decide)) (Nat.mod_lt _ (by decide)) h2
  have e1 := hexDigit_inj (Nat.mod_lt _ (by decide)) (Nat.mod_lt _ (by decide)) h1
  have e0 := hexDigit_inj (Nat.mod_lt _ (by decide)) (Nat.mod_lt _ (by decide)) h0
  omega

/-- The text emitted for one code unit is a two-unit escape, a `\u` escape of a
16-bit unit, or the unit itself when it is neither a backslash nor a surrogate. -/
theorem quoteUnit_form (u : Nat) :
    (∃ c, c ≠ 0x75 ∧ quoteUnit u = [0x5C, c] ∧
        (u = 0x08 ∧ c = 0x62 ∨ u = 0x09 ∧ c = 0x74 ∨ u = 0x0A ∧ c = 0x6E ∨ u = 0x0C ∧ c = 0x66
          ∨ u = 0x0D ∧ c = 0x72 ∨ u = 0x22 ∧ c = 0x22 ∨ u = 0x5C ∧ c = 0x5C))
      ∨ (u < 65536 ∧ quoteUnit u = unicodeEscape u)
      ∨ (u ≠ 0x5C ∧ isHighSurrogate u = false ∧ quoteUnit u = [u]) := by
  by_cases h1 : u = 0x08
  · subst h1; exact Or.inl ⟨0x62, by decide, rfl, by decide⟩
  by_cases h2 : u = 0x09
  · subst h2; exact Or.inl ⟨0x74, by decide, rfl, by decide⟩
  by_cases h3 : u = 0x0A
  · subst h3; exact Or.inl ⟨0x6E, by decide, rfl, by decide⟩
  by_cases h4 : u = 0x0C
  · subst h4; exact Or.inl ⟨0x66, by decide, rfl, by decide⟩
  by_cases h5 : u = 0x0D
  · subst h5; exact Or.inl ⟨0x72, by decide, rfl, by decide⟩
  by_cases h6 : u = 0x22
  · subst h6; exact Or.inl ⟨0x22, by decide, rfl, by decide⟩
  by_cases h7 : u = 0x5C
  · subst h7; exact Or.inl ⟨0x5C, by decide, rfl, by decide⟩
  by_cases h8 : u < 0x20
  · exact Or.inr (Or.inl ⟨by omega, by simp only [quoteUnit, if_neg h1, if_neg h2, if_neg h3,
      if_neg h4, if_neg h5, if_neg h6, if_neg h7, if_pos h8]⟩)
  by_cases h9 : (isHighSurrogate u || isLowSurrogate u) = true
  · refine Or.inr (Or.inl ⟨?_, by simp only [quoteUnit, if_neg h1, if_neg h2, if_neg h3,
      if_neg h4, if_neg h5, if_neg h6, if_neg h7, if_neg h8, if_pos h9]⟩)
    simp only [isHighSurrogate, isLowSurrogate, Bool.or_eq_true, Bool.and_eq_true,
      decide_eq_true_eq] at h9
    omega
  · refine Or.inr (Or.inr ⟨h7, ?_, by simp only [quoteUnit, if_neg h1, if_neg h2, if_neg h3,
      if_neg h4, if_neg h5, if_neg h6, if_neg h7, if_neg h8, if_neg h9]⟩)
    simp only [Bool.or_eq_true, not_or, Bool.not_eq_true] at h9
    exact h9.1

theorem quoteUnit_append_inj {u v : Nat} {x y : JSString}
    (h : quoteUnit u ++ x = quoteUnit v ++ y) : u = v ∧ x = y := by
  rcases quoteUnit_form u with ⟨c, hc, hq, hk⟩ | ⟨hu, hq⟩ | ⟨hu1, hu2, hq⟩ <;>
  rcases quoteUnit_form v with ⟨c', hc', hq', hk'⟩ | ⟨hv, hq'⟩ | ⟨hv1, hv2, hq'⟩ <;>
  rw [hq, hq'] at h
  · simp only [List.cons_append, List.nil_append, List.cons.injEq, true_and] at h
    obtain ⟨hcc, hxy⟩ := h
    refine ⟨?_, hxy⟩
    omega
  · simp only [unicodeEscape, List.cons_append, List.nil_append, List.cons.injEq, true_and] at h
    exact absurd h.1 hc
  · simp only [List.cons_append, List.nil_append, List.cons.injEq] at h
    exact absurd h.1.symm hv1
  · simp only [unicodeEscape, List.cons_append, List.nil_append, List.cons.injEq, true_and] at h
    exact absurd h.1.symm hc'
  · have hlen : (unicodeEscape u).length = (unicodeEscape v).length := rfl
    have := List.append_inj h hlen
    exact ⟨unicodeEscape_inj hu hv this.1, this.2⟩
  · simp only [unicodeEscape, List.cons_append, List.nil_append, List.cons.injEq] at h
    exact absurd h.1.symm hv1
  · simp only [List.cons_append, List.nil_append, List.cons.injEq] at h
    exact absurd h.1 hu1
  · simp only [unicodeEscape, List.cons_append, List.nil_append, List.cons.injEq] at h
    exact absurd h.1 hu1
  · simp only [List.cons_append, List.nil_append, List.cons.injEq] at h
    exact h

theorem quoteUnit_ne_nil (u : Nat) : quoteUnit u ≠ [] := by
  rcases quoteUnit_form u with ⟨c, _, hq, _⟩ | ⟨_, hq⟩ | ⟨_, _, hq⟩ <;> rw [hq] <;>
    simp [unicodeEscape]

/-- How `quoteUnits` reads the front of a string: nothing, a surrogate pair, or
a single unit. -/
theorem quoteUnits_front (s : JSString) :
    s = []
      ∨ (∃ u l r, s = u :: l :: r ∧ isHighSurrogate u = true
          ∧ quoteUnits s = u :: l :: quoteUnits r)
      ∨ (∃ v r, s = v :: r ∧ quoteUnits s = quoteUnit v ++ quoteUnits r) := by
  match s with
  | [] => exact Or.inl rfl
  | [u] => exact Or.inr (Or.inr ⟨u, [], rfl, by simp [quoteUnits]⟩)
  | u :: l :: r =>
    by_cases h : (isHighSurrogate u && isLowSurrogate l) = true
    · refine Or.inr (Or.inl ⟨u, l, r, rfl, ?_, by simp only [quoteUnits, if_pos h]⟩)
      simp only [Bool.and_eq_true] at h
      exact h.1
    · exact Or.inr (Or.inr ⟨u, l :: r, rfl, by simp only [quoteUnits, if_neg h]⟩)

theorem quoteUnits_inj_aux (n : Nat) :
    ∀ s t : JSString, s.length ≤ n → quoteUnits s = quoteUnits t → s = t := by
  induction n with
  | zero =>
    intro s t hs h
    have hs0 : s = [] := List.length_eq_zero.mp (Nat.le_zero.mp hs)
    subst hs0
    rcases quoteUnits_front t with ht | ⟨u, l, r, ht, _, hq⟩ | ⟨v, r, ht, hq⟩
    · exact ht.symm
    · rw [hq] at h; simp [quoteUnits] at h
    · rw [hq] at h
      simp only [quoteUnits] at h
      have := (List.append_eq_nil.mp h.symm).1
      exact absurd this (quoteUnit_ne_nil v)
  | succ n ih =>
    intro s t hs h
    rcases quoteUnits_front s with hs0 | ⟨u, l, r, hs1, hu, hq⟩ | ⟨v, r, hs1, hq⟩
    · subst hs0
      exact ih [] t (Nat.zero_le _) h
    · rcases quoteUnits_front t with ht | ⟨u', l', r', ht, _, hq'⟩ | ⟨v', r', ht, hq'⟩
      · subst ht; rw [hq] at h; simp [quoteUnits] at h
      · rw [hq, hq'] at h
        simp only [List.cons.injEq] at h
        obtain ⟨h1, h2, h3⟩ := h
        have hr : r.length ≤ n := by
          rw [hs1] at hs; simp only [List.length_cons] at hs; omega
        rw [hs1, ht, h1, h2, ih r r' hr h3]
      · rw [hq, hq'] at h
        rcases quoteUnit_form v' with ⟨c, _, hf, _⟩ | ⟨_, hf⟩ | ⟨_, hv, hf⟩ <;>
          rw [hf] at h <;>
          simp only [unicodeEscape, List.cons_append, List.nil_append, List.cons.injEq] at h
        · rw [h.1] at hu; exact absurd hu (by decide)
        · rw [h.1] at hu; exact absurd hu (by decide)
        · rw [h.1, hv] at hu; exact absurd hu (by decide)
    · rcases quoteUnits_front t with ht | ⟨u', l', r', ht, hu', hq'⟩ | ⟨v', r', ht, hq'⟩
      · subst ht
        rw [hq] at h
        simp only [quoteUnits] at h
        exact absurd (List.append_eq_nil.mp h).1 (quoteUnit_ne_nil v)
      · rw [hq, hq'] at h
        rcases quoteUnit_form v with ⟨c, _, hf, _⟩ | ⟨_, hf⟩ | ⟨_, hv, hf⟩ <;>
          rw [hf] at h <;>
          simp only [unicodeEscape, List.cons_append, List.nil_append, List.cons.injEq] at h
        · rw [← h.1] at hu'; exact absurd hu' (by decide)
        · rw [← h.1] at hu'; exact absurd hu' (by decide)
        · rw [← h.1, hv] at hu'; exact absurd hu' (by decide)
      · rw [hq, hq'] at h
        obtain ⟨h1, h2⟩ := quoteUnit_append_inj h
        have hr : r.length ≤ n := by
          rw [hs1] at hs; simp only [List.length_cons] at hs; omega
        rw [hs1, ht, h1, ih r r' hr h2]

/-- The operation `QuoteJSONString` is injective: distinct strings have distinct quotations. -/
theorem quoteUnits_inj {s t : JSString} (h : quoteUnits s = quoteUnits t) : s = t :=
  quoteUnits_inj_aux s.length s t (Nat.le_refl _) h

end JSON

/-- Two 201 responses with the same body carry the same identifier. -/
theorem response201_body_inj {a b : JSString}
    (h : (response201 a).body = (response201 b).body) : a = b := by
  rw [response201_body, response201_body] at h
  exact JSON.quoteUnits_inj (List.append_cancel_left (List.append_cancel_right h))

/-! ## Claims -/

/-- C1: when the body parses to an object whose name, email and message are all
truthy (whatever their type) and the store accepts the write, the handler
returns status 201 with the JSON serialization of exactly
`{submissionId, message: "Submission saved."}` for the identifier generated in
this invocation. -/
theorem handler_created (env : Env) (text : JSString) (props : List (JSString × JSVal))
    (hparse : JSON.parse text = .ok (.object props))
    (hname : ToBoolean (getProp props (utf16 "name")) = true)
    (hemail : ToBoolean (getProp props (utf16 "email")) = true)
    (hmessage : ToBoolean (getProp props (utf16 "message")) = true)
    (hsend : env.send (putInput (TABLE env.TABLE_NAME)
      (mkItem env.uuidv4 (getProp props (utf16 "name")) (getProp props (utf16 "email"))
        (getProp props (utf16 "message")) env.now (utf16 "NEW"))) = .ok ()) :
    (handler env (.object (.text text))).response =
        { statusCode := 201, headers := headers,
          body := JSON.stringify
            [(utf16 "submissionId", env.uuidv4), (utf16 "message", utf16 "Submission saved.")] }
      ∧ (handler env (.object (.text text))).response.body =
        utf16 "\x7b\"submissionId\":\"" ++ JSON.quoteUnits env.uuidv4
          ++ utf16 "\",\"message\":\"Submission saved.\"\x7d" := by
  have h : handler env (.object (.text text)) = ⟨response201 env.uuidv4, _⟩ :=
    handler_of_tryBlock_ok (by
      rw [tryBlock_object env hparse]
      simp only [hname, hemail, hmessage, hsend]
      rfl)
  rw [h]
  exact ⟨rfl, response201_body env.uuidv4⟩

theorem handler_created_witness :
    JSON.parse scenarioA =
        .ok (.object [(utf16 "name", .string (utf16 "Ada")),
          (utf16 "email", .string (utf16 "ada@example.com")),
          (utf16 "message", .string (utf16 "Hello"))])
      ∧ (handler (Env.accepting (utf16 "3f2a") (utf16 "2024-05-01T10:00:00.000Z"))
          (.object (.text scenarioA))).response.body =
        utf16 "\x7b\"submissionId\":\"3f2a\",\"message\":\"Submission saved.\"\x7d" :=
  ⟨rfl, (handler_created (Env.accepting (utf16 "3f2a") (utf16 "2024-05-01T10:00:00.000Z")) scenarioA
    [(utf16 "name", .string (utf16 "Ada")), (utf16 "email", .string (utf16 "ada@example.com")),
      (utf16 "message", .string (utf16 "Hello"))] rfl rfl rfl rfl rfl).2⟩

/-- C2: on every invocation that passes validation exactly one put is issued to
the store; its item is exactly the six-field record whose name, email and
message are the parsed values unchanged, whose status is "NEW", whose
submissionDate is the timestamp read in this invocation, and whose submissionId
is the identifier the 201 response carries. -/
theorem handler_put_once (env : Env) (text : JSString) (props : List (JSString × JSVal))
    (hparse : JSON.parse text = .ok (.object props))
    (hname : ToBoolean (getProp props (utf16 "name")) = true)
    (hemail : ToBoolean (getProp props (utf16 "email")) = true)
    (hmessage : ToBoolean (getProp props (utf16 "message")) = true) :
    sends (handler env (.object (.text text))).effects =
        [.object
          [(utf16 "TableName", .string (TABLE env.TABLE_NAME)),
           (utf16 "Item", .object
            [(utf16 "submissionId", .string env.uuidv4),
             (utf16 "name", getProp props (utf16 "name")),
             (utf16 "email", getProp props (utf16 "email")),
             (utf16 "message", getProp props (utf16 "message")),
             (utf16 "submissionDate", .string env.now),
             (utf16 "status", .string (utf16 "NEW"))])]]
      ∧ ((handler env (.object (.text text))).response.statusCode = 201 →
          (handler env (.object (.text text))).response.body =
            JSON.stringify
              [(utf16 "submissionId", env.uuidv4), (utf16 "message", utf16 "Submission saved.")]) := by
  have ht := tryBlock_object env hparse
  simp only [hname, hemail, hmessage, Bool.not_true, Bool.or_self, Bool.false_eq_true,
    if_false] at ht
  cases hsend : env.send (putInput (TABLE env.TABLE_NAME)
      (mkItem env.uuidv4 (getProp props (utf16 "name")) (getProp props (utf16 "email"))
        (getProp props (utf16 "message")) env.now (utf16 "NEW"))) with
  | error err =>
    rw [hsend] at ht
    rw [handler_of_tryBlock_error ht]
    refine ⟨rfl, ?_⟩
    intro h
    have h500 : response500.statusCode = 201 := h
    exact absurd h500 (by decide)
  | ok u =>
    rw [hsend] at ht
    rw [handler_of_tryBlock_ok ht]
    exact ⟨rfl, fun _ => rfl⟩

theorem handler_put_once_witness :
    sends (handler (Env.rejecting (utf16 "3f2a") (utf16 "2024-05-01T10:00:00.000Z")
        (.rejected (utf16 "ResourceNotFoundException") (utf16 "no table")))
        (.object (.text scenarioA))).effects =
      [.object
        [(utf16 "TableName", .string (utf16 "UserSubmissions")),
         (utf16 "Item", .object
          [(utf16 "submissionId", .string (utf16 "3f2a")),
           (utf16 "name", .string (utf16 "Ada")),
           (utf16 "email", .string (utf16 "ada@example.com")),
           (utf16 "message", .string (utf16 "Hello")),
           (utf16 "submissionDate", .string (utf16 "2024-05-01T10:00:00.000Z")),
           (utf16 "status", .string (utf16 "NEW"))])]] :=
  (handler_put_once (Env.rejecting (utf16 "3f2a") (utf16 "2024-05-01T10:00:00.000Z")
        (.rejected (utf16 "ResourceNotFoundException") (utf16 "no table")))
    scenarioA
    [(utf16 "name", .string (utf16 "Ada")), (utf16 "email", .string (utf16 "ada@example.com")),
      (utf16 "message", .string (utf16 "Hello"))] rfl rfl rfl rfl).1

/-- C3: when the body parses to an object in which name, email or message is
falsy (absent, null, the empty string, or any other falsy value), the handler
returns status 400 with body `{"error":"name, email and message are required."}`
and performs no effect: no store command and no log entry. -/
theorem handler_validation_failure (env : Env) (text : JSString)
    (props : List (JSString × JSVal))
    (hparse : JSON.parse text = .ok (.object props))
    (hfalsy : ToBoolean (getProp props (utf16 "name")) = false
      ∨ ToBoolean (getProp props (utf16 "email")) = false
      ∨ ToBoolean (getProp props (utf16 "message")) = false) :
    (handler env (.object (.text text))).response =
        { statusCode := 400, headers := headers,
          body := utf16 "\x7b\"error\":\"name, email and message are required.\"\x7d" }
      ∧ (handler env (.object (.text text))).effects = [] := by
  have ht := tryBlock_object env hparse
  have hc : (!ToBoolean (getProp props (utf16 "name")) || !ToBoolean (getProp props (utf16 "email"))
      || !ToBoolean (getProp props (utf16 "message"))) = true := by
    rcases hfalsy with h | h | h <;> simp [h]
  rw [if_pos hc] at ht
  rw [handler_of_tryBlock_ok ht]
  exact ⟨response400_eq, rfl⟩

theorem handler_validation_failure_witness :
    JSON.parse scenarioB =
        .ok (.object [(utf16 "name", .string []),
          (utf16 "email", .string (utf16 "ada@example.com")),
          (utf16 "message", .string (utf16 "Hello"))])
      ∧ (handler (Env.accepting (utf16 "3f2a") (utf16 "2024-05-01T10:00:00.000Z"))
          (.object (.text scenarioB))).response.statusCode = 400
      ∧ (handler (Env.accepting (utf16 "3f2a") (utf16 "2024-05-01T10:00:00.000Z"))
          (.object (.text scenarioB))).effects = [] :=
  have h := handler_validation_failure
    (Env.accepting (utf16 "3f2a") (utf16 "2024-05-01T10:00:00.000Z")) scenarioB
    [(utf16 "name", .string []), (utf16 "email", .string (utf16 "ada@example.com")),
      (utf16 "message", .string (utf16 "Hello"))] rfl (Or.inl rfl)
  ⟨rfl, congrArg Response.statusCode h.1, h.2⟩

/-- C4: when validation passes and the store write raises `err`, the handler
returns status 500 with body `{"error":"Internal server error"}`; `err` goes to
`console.error` only, and the failed command is the only one sent.  The response
does not depend on the fault: an invocation on the same request whose write
raises any other error `err'` returns the identical response. -/
theorem handler_store_fault (env env' : Env) (text : JSString)
    (props : List (JSString × JSVal)) (err err' : JSError)
    (hparse : JSON.parse text = .ok (.object props))
    (hname : ToBoolean (getProp props (utf16 "name")) = true)
    (hemail : ToBoolean (getProp props (utf16 "email")) = true)
    (hmessage : ToBoolean (getProp props (utf16 "message")) = true)
    (hsend : env.send (putInput (TABLE env.TABLE_NAME)
      (mkItem env.uuidv4 (getProp props (utf16 "name")) (getProp props (utf16 "email"))
        (getProp props (utf16 "message")) env.now (utf16 "NEW"))) = .error err)
    (hsend' : env'.send (putInput (TABLE env'.TABLE_NAME)
      (mkItem env'.uuidv4 (getProp props (utf16 "name")) (getProp props (utf16 "email"))
        (getProp props (utf16 "message")) env'.now (utf16 "NEW"))) = .error err') :
    (handler env (.object (.text text))).response =
        { statusCode := 500, headers := headers,
          body := utf16 "\x7b\"error\":\"Internal server error\"\x7d" }
      ∧ (handler env (.object (.text text))).effects =
        [.send (putInput (TABLE env.TABLE_NAME)
            (mkItem env.uuidv4 (getProp props (utf16 "name")) (getProp props (utf16 "email"))
              (getProp props (utf16 "message")) env.now (utf16 "NEW"))),
          .consoleError err]
      ∧ (handler env' (.object (.text text))).response
          = (handler env (.object (.text text))).response := by
  have ht := tryBlock_object env hparse
  have ht' := tryBlock_object env' hparse
  simp only [hname, hemail, hmessage, Bool.not_true, Bool.or_self, Bool.false_eq_true,
    if_false, hsend] at ht
  simp only [hname, hemail, hmessage, Bool.not_true, Bool.or_self, Bool.false_eq_true,
    if_false, hsend'] at ht'
  rw [handler_of_tryBlock_error ht, handler_of_tryBlock_error ht']
  exact ⟨response500_eq, rfl, rfl⟩

theorem handler_store_fault_witness :
    (handler (Env.rejecting (utf16 "3f2a") (utf16 "2024-05-01T10:00:00.000Z")
        (.rejected (utf16 "ProvisionedThroughputExceededException") (utf16 "throttled")))
        (.object (.text scenarioA))).response =
      { statusCode := 500, headers := headers,
        body := utf16 "\x7b\"error\":\"Internal server error\"\x7d" }
    ∧ logged (handler (Env.rejecting (utf16 "3f2a") (utf16 "2024-05-01T10:00:00.000Z")
        (.rejected (utf16 "ProvisionedThroughputExceededException") (utf16 "throttled")))
        (.object (.text scenarioA))).effects =
      [.rejected (utf16 "ProvisionedThroughputExceededException") (utf16 "throttled")]
    ∧ (handler (Env.rejecting (utf16 "77c1") (utf16 "2024-05-01T10:00:01.000Z")
        (.rejected (utf16 "AccessDeniedException") (utf16 "denied")))
        (.object (.text scenarioA))).response =
      (handler (Env.rejecting (utf16 "3f2a") (utf16 "2024-05-01T10:00:00.000Z")
        (.rejected (utf16 "ProvisionedThroughputExceededException") (utf16 "throttled")))
        (.object (.text scenarioA))).response :=
  have h := handler_store_fault
    (Env.rejecting (utf16 "3f2a") (utf16 "2024-05-01T10:00:00.000Z")
      (.rejected (utf16 "ProvisionedThroughputExceededException") (utf16 "throttled")))
    (Env.rejecting (utf16 "77c1") (utf16 "2024-05-01T10:00:01.000Z")
      (.rejected (utf16 "AccessDeniedException") (utf16 "denied")))
    scenarioA
    [(utf16 "name", .string (utf16 "Ada")), (utf16 "email", .string (utf16 "ada@example.com")),
      (utf16 "message", .string (utf16 "Hello"))]
    (.rejected (utf16 "ProvisionedThroughputExceededException") (utf16 "throttled"))
    (.rejected (utf16 "AccessDeniedException") (utf16 "denied"))
    rfl rfl rfl rfl rfl rfl
  ⟨h.1, by rw [h.2.1]; rfl, h.2.2⟩

/-- C5: when the body is a non-empty string that `JSON.parse` rejects, the
handler returns status 500 with body `{"error":"Internal server error"}`, which
is not the 400 validation response, and sends no store command; the parse error
is the only effect, passed to `console.error`. -/
theorem handler_malformed_json (env : Env) (text : JSString) (err : JSError)
    (hne : text ≠ [])
    (hparse : JSON.parse text = .error err) :
    (handler env (.object (.text text))).response =
        { statusCode := 500, headers := headers,
          body := utf16 "\x7b\"error\":\"Internal server error\"\x7d" }
      ∧ (handler env (.object (.text text))).response ≠ response400
      ∧ sends (handler env (.object (.text text))).effects = []
      ∧ (handler env (.object (.text text))).effects = [.consoleError err] := by
  have ht : tryBlock env (.object (.text text)) = ([], .error err) := by
    simp only [tryBlock, eventBody, parseBody_text_error hne hparse]
  rw [handler_of_tryBlock_error ht]
  exact ⟨response500_eq, response500_ne_response400, rfl, rfl⟩

theorem handler_malformed_json_witness :
    JSON.parse (utf16 "\x7b\"name\":\"Ada\",") = .error .SyntaxError
      ∧ (handler (Env.accepting (utf16 "3f2a") (utf16 "2024-05-01T10:00:00.000Z"))
          (.object (.text (utf16 "\x7b\"name\":\"Ada\",")))).response.statusCode = 500
      ∧ sends (handler (Env.accepting (utf16 "3f2a") (utf16 "2024-05-01T10:00:00.000Z"))
          (.object (.text (utf16 "\x7b\"name\":\"Ada\",")))).effects = [] :=
  have h := handler_malformed_json
    (Env.accepting (utf16 "3f2a") (utf16 "2024-05-01T10:00:00.000Z"))
    (utf16 "\x7b\"name\":\"Ada\",") .SyntaxError (by decide) rfl
  ⟨rfl, congrArg Response.statusCode h.1, h.2.2.1⟩

/-- C6: a body that is absent, `null`, the empty string or the text `{}` is read
as the empty object without a parse error, and the handler returns the 400
validation response of a missing field, with no store command and no other
effect. -/
theorem handler_empty_body (env : Env) :
    parseBody .undefined = .ok (.object [])
      ∧ parseBody .null = .ok (.object [])
      ∧ parseBody (.text []) = .ok (.object [])
      ∧ parseBody (.text (utf16 "\x7b\x7d")) = .ok (.object [])
      ∧ handler env (.object .undefined) = ⟨response400, []⟩
      ∧ handler env (.object .null) = ⟨response400, []⟩
      ∧ handler env (.object (.text [])) = ⟨response400, []⟩
      ∧ handler env (.object (.text (utf16 "\x7b\x7d"))) = ⟨response400, []⟩
      ∧ response400 =
        { statusCode := 400, headers := headers,
          body := utf16 "\x7b\"error\":\"name, email and message are required.\"\x7d" } :=
  ⟨rfl, rfl, rfl, rfl, rfl, rfl, rfl, rfl, response400_eq⟩

/-- C7: for every event (also `undefined`, `null`, or an object without a body)
and every store behaviour the handler returns a response, and that response is
one of exactly three: status 201 with the success body, status 400 with the
validation-error body, or status 500 with the internal-error body.  An event
that is `undefined` or `null` gets the 500 response. -/
theorem handler_total (env : Env) (event : Event) :
    ((handler env event).response =
        { statusCode := 201, headers := headers,
          body := JSON.stringify
            [(utf16 "submissionId", env.uuidv4), (utf16 "message", utf16 "Submission saved.")] }
      ∨ (handler env event).response =
        { statusCode := 400, headers := headers,
          body := utf16 "\x7b\"error\":\"name, email and message are required.\"\x7d" }
      ∨ (handler env event).response =
        { statusCode := 500, headers := headers,
          body := utf16 "\x7b\"error\":\"Internal server error\"\x7d" })
      ∧ (handler env .undefined).response = response500
      ∧ (handler env .null).response = response500
      ∧ (handler env (.object .undefined)).response = response400 := by
  refine ⟨?_, rfl, rfl, rfl⟩
  rcases handler_response_cases env event with h | h | h
  · exact Or.inl h
  · exact Or.inr (Or.inl (h.trans response400_eq))
  · exact Or.inr (Or.inr (h.trans response500_eq))

/-- C8: every response the handler returns, whatever the request and the store
outcome, carries exactly the two headers `Content-Type: application/json` and
`Access-Control-Allow-Origin: *`. -/
theorem handler_headers (env : Env) (event : Event) :
    (handler env event).response.headers =
      [(utf16 "Content-Type", utf16 "application/json"),
       (utf16 "Access-Control-Allow-Origin", utf16 "*")] := by
  rcases handler_response_cases env event with h | h | h <;> rw [h] <;> rfl

/-- C9: the handler is not idempotent.  For two invocations on the same valid
request whose writes both succeed and whose generated identifiers differ, each
invocation sends exactly one put, with no read before it and no condition on
it; the two items are keyed by the two different identifiers, and the two
responses are the 201 responses for those identifiers, with different bodies. -/
theorem handler_not_idempotent (env₁ env₂ : Env) (text : JSString)
    (props : List (JSString × JSVal))
    (hparse : JSON.parse text = .ok (.object props))
    (hname : ToBoolean (getProp props (utf16 "name")) = true)
    (hemail : ToBoolean (getProp props (utf16 "email")) = true)
    (hmessage : ToBoolean (getProp props (utf16 "message")) = true)
    (hsend₁ : env₁.send (putInput (TABLE env₁.TABLE_NAME)
      (mkItem env₁.uuidv4 (getProp props (utf16 "name")) (getProp props (utf16 "email"))
        (getProp props (utf16 "message")) env₁.now (utf16 "NEW"))) = .ok ())
    (hsend₂ : env₂.send (putInput (TABLE env₂.TABLE_NAME)
      (mkItem env₂.uuidv4 (getProp props (utf16 "name")) (getProp props (utf16 "email"))
        (getProp props (utf16 "message")) env₂.now (utf16 "NEW"))) = .ok ())
    (hid : env₁.uuidv4 ≠ env₂.uuidv4) :
    (∃ item₁ item₂ : JSVal,
        (handler env₁ (.object (.text text))).effects =
          [.send (.object [(utf16 "TableName", .string (TABLE env₁.TABLE_NAME)),
            (utf16 "Item", item₁)])]
        ∧ (handler env₂ (.object (.text text))).effects =
          [.send (.object [(utf16 "TableName", .string (TABLE env₂.TABLE_NAME)),
            (utf16 "Item", item₂)])]
        ∧ getField item₁ (utf16 "submissionId") = .string env₁.uuidv4
        ∧ getField item₂ (utf16 "submissionId") = .string env₂.uuidv4
        ∧ getField item₁ (utf16 "submissionId") ≠ getField item₂ (utf16 "submissionId"))
      ∧ (handler env₁ (.object (.text text))).response = response201 env₁.uuidv4
      ∧ (handler env₂ (.object (.text text))).response = response201 env₂.uuidv4
      ∧ (handler env₁ (.object (.text text))).response.body
          ≠ (handler env₂ (.object (.text text))).response.body := by
  have ht₁ := tryBlock_object env₁ hparse
  have ht₂ := tryBlock_object env₂ hparse
  simp only [hname, hemail, hmessage, Bool.not_true, Bool.or_self, Bool.false_eq_true,
    if_false, hsend₁] at ht₁
  simp only [hname, hemail, hmessage, Bool.not_true, Bool.or_self, Bool.false_eq_true,
    if_false, hsend₂] at ht₂
  rw [handler_of_tryBlock_ok ht₁, handler_of_tryBlock_ok ht₂]
  refine ⟨⟨_, _, rfl, rfl, rfl, rfl, ?_⟩, rfl, rfl, ?_⟩
  · intro h
    have h' : JSVal.string env₁.uuidv4 = JSVal.string env₂.uuidv4 := h
    exact hid (JSVal.string.inj h')
  · intro h
    exact hid (response201_body_inj h)

theorem handler_not_idempotent_witness :
    (handler (Env.accepting (utf16 "3f2a") (utf16 "2024-05-01T10:00:00.000Z"))
        (.object (.text scenarioA))).response.body
      ≠ (handler (Env.accepting (utf16 "77c1") (utf16 "2024-05-01T10:00:01.000Z"))
        (.object (.text scenarioA))).response.body :=
  (handler_not_idempotent (Env.accepting (utf16 "3f2a") (utf16 "2024-05-01T10:00:00.000Z"))
    (Env.accepting (utf16 "77c1") (utf16 "2024-05-01T10:00:01.000Z")) scenarioA
    [(utf16 "name", .string (utf16 "Ada")), (utf16 "email", .string (utf16 "ada@example.com")),
      (utf16 "message", .string (utf16 "Hello"))] rfl rfl rfl rfl rfl rfl (by decide)).2.2.2

/-- C10 as stated fails: the body text `null` is well-formed JSON of a
non-object value, yet destructuring `null` throws and the handler returns the
500 response instead of the 400 one. -/
theorem handler_json_null_counterexample :
    JSON.parse (utf16 "null") = .ok .null
      ∧ (handler (Env.accepting (utf16 "3f2a") (utf16 "2024-05-01T10:00:00.000Z"))
          (.object (.text (utf16 "null")))).response.statusCode = 500
      ∧ (handler (Env.accepting (utf16 "3f2a") (utf16 "2024-05-01T10:00:00.000Z"))
          (.object (.text (utf16 "null")))).response ≠ response400 :=
  ⟨rfl, rfl, by decide⟩

/-- C10, amended: when the body is well-formed JSON text of a number, a string,
a boolean or an array, the handler returns the 400 validation response and
performs no effect, so no record is persisted; when it is the JSON text `null`,
destructuring throws a `TypeError`, the handler returns the 500 response, and
again no store command is sent. -/
theorem handler_json_non_object (env : Env) (text : JSString) (v : JSVal)
    (hparse : JSON.parse text = .ok v) :
    match v with
    | .number _ | .string _ | .bool _ | .array _ =>
      (handler env (.object (.text text))).response = response400
        ∧ (handler env (.object (.text text))).effects = []
    | .null =>
      (handler env (.object (.text text))).response = response500
        ∧ (handler env (.object (.text text))).effects = [.consoleError .TypeError]
    | _ => True := by
  have hb := parseBody_text hparse
  cases v with
  | undefined => trivial
  | object props => trivial
  | null =>
    have ht : tryBlock env (.object (.text text)) = ([], .error .TypeError) := by
      simp only [tryBlock, eventBody, hb, destructure]
    rw [handler_of_tryBlock_error ht]
    exact ⟨rfl, rfl⟩
  | bool b =>
    have ht : tryBlock env (.object (.text text)) = ([], .ok response400) := by
      simp [tryBlock, eventBody, hb, destructure, getField, ToBoolean]
    rw [handler_of_tryBlock_ok ht]
    exact ⟨rfl, rfl⟩
  | number n =>
    have ht : tryBlock env (.object (.text text)) = ([], .ok response400) := by
      simp [tryBlock, eventBody, hb, destructure, getField, ToBoolean]
    rw [handler_of_tryBlock_ok ht]
    exact ⟨rfl, rfl⟩
  | string s =>
    have ht : tryBlock env (.object (.text text)) = ([], .ok response400) := by
      simp [tryBlock, eventBody, hb, destructure, getField, ToBoolean]
    rw [handler_of_tryBlock_ok ht]
    exact ⟨rfl, rfl⟩
  | array items =>
    have ht : tryBlock env (.object (.text text)) = ([], .ok response400) := by
      simp [tryBlock, eventBody, hb, destructure, getField, ToBoolean]
    rw [handler_of_tryBlock_ok ht]
    exact ⟨rfl, rfl⟩

theorem handler_json_non_object_witness :
    JSON.parse (utf16 "[\"Ada\", 42]")
        = .ok (.array [.string (utf16 "Ada"), .number ⟨false, 42, 0⟩])
      ∧ (handler (Env.accepting (utf16 "3f2a") (utf16 "2024-05-01T10:00:00.000Z"))
          (.object (.text (utf16 "[\"Ada\", 42]")))).response = response400
      ∧ (handler (Env.accepting (utf16 "3f2a") (utf16 "2024-05-01T10:00:00.000Z"))
          (.object (.text (utf16 "[\"Ada\", 42]")))).effects = [] :=
  ⟨rfl, handler_json_non_object (Env.accepting (utf16 "3f2a") (utf16 "2024-05-01T10:00:00.000Z"))
    (utf16 "[\"Ada\", 42]") (.array [.string (utf16 "Ada"), .number ⟨false, 42, 0⟩]) rfl⟩

end SubmissionLambda
